import Mathlib

/-!
Shallow embedding of the cursor-pagination layer in
`src/nodes/Resend/GenericFunctions.ts`: the `requestList` engine
(lines 203-302) and the `paginatedLoadOptions` dropdown loader
(lines 82-132).  The HTTP transport is modelled as a function
`pages : Nat → Page` giving the JSON document returned by the n-th
network call of a walk; each embedded function additionally returns the
transcript of query objects it sent, so that claims about the number and
the shape of the network calls can be stated and proved.
-/

/-- An upstream item.  The engine only inspects `id`; the loader inspects
`id` and `name`.  `none` models an absent field and `some ""` an empty
string (both are falsy in the source).  `rest` carries the remaining,
opaque JSON fields of the item. -/
structure Item where
  id : Option String
  name : Option String
  rest : List (String × String)
deriving DecidableEq

/-- One JSON document returned by the transport.  `data = none` models a
response whose `data` field is not an array; `extra` carries every further
field of the document, so frame claims about untouched fields can be
stated. -/
structure Page where
  object : String
  data : Option (List Item)
  has_more : Bool
  extra : List (String × String)
deriving DecidableEq

/-- Caller-supplied `ListOptions` (`after?: string; before?: string`). -/
structure ListOptions where
  after : Option String
  before : Option String
deriving DecidableEq

/-- JavaScript truthiness of an optional string: `undefined` and `""` are
falsy, every non-empty string is truthy. -/
def optTruthy : Option String → Bool
  | none => false
  | some s => !s.isEmpty

/-- The query object sent with one engine request: `limit` plus at most the
two cursor fields (`delete qs.after` / `delete qs.before` is modelled by
setting the field to `none`). -/
structure Qs where
  limit : Option Int
  after : Option String
  before : Option String
deriving DecidableEq

/-- Pagination direction, the source's `paginationMode` values. -/
inductive Dir
  | after
  | before
deriving DecidableEq

/-- Errors thrown by `requestList`: a `NodeOperationError` carrying a
message and the originating `itemIndex`. -/
inductive ReqError
  | invalidArgument (message : String) (itemIndex : Nat)
deriving DecidableEq

deriving instance DecidableEq for Except

/-- Client-side truncation of single-page mode (source lines 245-257): when
`limit` is a number, positive, and the response `data` is an array with more
than `limit` items, keep exactly the first `limit` items. -/
def truncateSingle (resp : Page) (limit : Option Int) : Page :=
  match limit, resp.data with
  | some l, some d =>
      if 0 < l ∧ l < (d.length : Int) then { resp with data := some (d.take l.toNat) }
      else resp
  | _, _ => resp

/-- Cursor taken from a fetched page: `responseData[responseData.length - 1].id`,
except that a missing last item or a falsy (missing or empty) `id` yields
`none` — the source's `if (!lastItem?.id) break`. -/
def lastCursor (rd : List Item) : Option String :=
  match rd.getLast? with
  | none => none
  | some it =>
      match it.id with
      | none => none
      | some s => if s.isEmpty then none else some s

/-- Query update on continuation (source lines 285-292): the active cursor
field is set to the new cursor and the inactive one deleted. -/
def nextQs (qs : Qs) (mode : Option Dir) (nid : String) : Qs :=
  match mode with
  | some Dir.before => { qs with before := some nid, after := none }
  | _ => { qs with after := some nid, before := none }

/-- `paginationMode` update on continuation: `'before'` stays `'before'`,
anything else becomes `'after'`. -/
def nextMode (mode : Option Dir) : Option Dir :=
  match mode with
  | some Dir.before => some Dir.before
  | _ => some Dir.after

/-- Outcome of the aggregation loop: the last response fetched, the
accumulated `allItems`, and the transcript of query objects sent. -/
structure AggOut where
  lastResponse : Page
  allItems : List Item
  calls : List Qs
deriving DecidableEq

/-- The `while (hasMore)` loop of `requestList` (source lines 267-293),
indexed by the remaining fuel `maxPages - pageCount`.  Each iteration
fetches `pages ci`, appends the page's items (an absent array counts as
`[]`) and the query object sent, then either stops — `has_more` falsy,
empty page, `pageCount >= maxPages`, or falsy last `id` — or updates the
cursor fields and the mode and recurses on the next call index. -/
def loopGo (pages : Nat → Page) : Nat → Nat → Qs → Option Dir → List Item → List Qs → AggOut
  | 0, ci, qs, _, items, log =>
      ⟨pages ci, items ++ ((pages ci).data.getD []), log ++ [qs]⟩
  | f+1, ci, qs, mode, items, log =>
      let resp := pages ci
      let rd := resp.data.getD []
      if !resp.has_more || rd.isEmpty || f == 0 then ⟨resp, items ++ rd, log ++ [qs]⟩
      else
        match lastCursor rd with
        | none => ⟨resp, items ++ rd, log ++ [qs]⟩
        | some nid =>
            loopGo pages f (ci+1) (nextQs qs mode nid) (nextMode mode) (items ++ rd) (log ++ [qs])

/-- Initial query object of `requestList` (source lines 220-232):
`limit` is `100` when aggregating, else the caller's `limit` with nullish
default `50`; a cursor field is included exactly when the caller's value is
truthy. -/
def initialQs (lo : ListOptions) (returnAll : Bool) (limit : Option Int) : Qs :=
  { limit := some (if returnAll then 100 else limit.getD 50),
    after := if optTruthy lo.after then lo.after else none,
    before := if optTruthy lo.before then lo.before else none }

/-- Initial `paginationMode` (source line 265): `'before'` when the caller
supplied a truthy `before`, otherwise undefined. -/
def initialMode (lo : ListOptions) : Option Dir :=
  if optTruthy lo.before then some Dir.before else none

/-- Final packaging of the aggregation loop's outcome (source lines
295-301): when the last response's `data` is an array, mutate that response
in place — `data` becomes `allItems` and `has_more` becomes `false` — and
return it; otherwise fall back to a fresh `{object: 'list', data: allItems,
has_more: false}` document. -/
def finalizeAgg (out : AggOut) : Except ReqError Page :=
  match out.lastResponse.data with
  | some _ => .ok { out.lastResponse with data := some out.allItems, has_more := false }
  | none => .ok { object := "list", data := some out.allItems, has_more := false, extra := [] }

/-- The cursor-pagination engine `requestList`.  Returns the result (or the
thrown error) together with the transcript of the query objects sent, in
call order; an error thrown before any network call yields an empty
transcript. -/
def requestList (pages : Nat → Page) (lo : ListOptions) (itemIndex : Nat)
    (returnAll : Bool) (limit : Option Int) : Except ReqError Page × List Qs :=
  if optTruthy lo.after && optTruthy lo.before then
    (.error (.invalidArgument "You can only use either \"After\" or \"Before\", not both." itemIndex),
     [])
  else if returnAll then
    let out := loopGo pages 100 0 (initialQs lo returnAll limit) (initialMode lo) [] []
    (finalizeAgg out, out.calls)
  else
    (.ok (truncateSingle (pages 0) limit), [initialQs lo returnAll limit])

/-- Abbreviation for the aggregation loop as started by `requestList` in
full-aggregation mode: fuel `100` (`maxPages`), call index `0`, the initial
query and mode, empty accumulators. -/
def aggOut (pages : Nat → Page) (lo : ListOptions) (lim : Option Int) : AggOut :=
  loopGo pages 100 0 (initialQs lo true lim) (initialMode lo) [] []

/-- Query object sent by the dropdown loader: fixed `limit` plus `after`
when truthy. -/
structure LoadQs where
  limit : Int
  after : Option String
deriving DecidableEq

/-- A `{name, value}` display pair produced by the dropdown loader. -/
structure OptionPair where
  name : String
  value : String
deriving DecidableEq

/-- Projection of one item by the dropdown loader (source lines 112-121):
items with a falsy `id` are skipped; otherwise `name` is
`"{item.name} ({item.id})"` when `name` is truthy and `item.id` alone
otherwise, and `value` is `item.id`. -/
def projectItem (it : Item) : Option OptionPair :=
  match it.id with
  | none => none
  | some i =>
      if i.isEmpty then none
      else
        some { name := match it.name with
                       | some n => if n.isEmpty then i else n ++ " (" ++ i ++ ")"
                       | none => i,
               value := i }

/-- Projection of a whole page, in order, skipping items with falsy `id`. -/
def projectItems (items : List Item) : List OptionPair :=
  items.filterMap projectItem

/-- Next `after` cursor of the dropdown loader (source line 124):
the last item's `id` when the page is non-empty, else undefined. -/
def loaderNextAfter (items : List Item) : Option String :=
  match items.getLast? with
  | none => none
  | some it => it.id

/-- State threaded through the dropdown loader's loop: the accumulated
display pairs, the raw items received so far (in arrival order), and the
transcript of query objects sent. -/
structure LoadState where
  returnData : List OptionPair
  received : List Item
  calls : List LoadQs
deriving DecidableEq

/-- One iteration's bookkeeping of the dropdown loader: send
`{limit: 100, after?}` (the cursor only when truthy), project the fetched
page's items in order, and record the raw items and the query sent. -/
def loadStep (pages : Nat → Page) (ci : Nat) (after : Option String) (st : LoadState) : LoadState :=
  ⟨st.returnData ++ projectItems ((pages ci).data.getD []),
   st.received ++ (pages ci).data.getD [],
   st.calls ++ [⟨100, if optTruthy after then after else none⟩]⟩

/-- The `while (hasMore)` loop of `paginatedLoadOptions` (source lines
95-129), indexed by the remaining fuel `maxPages - pageCount` with
`maxPages = 10`.  Each iteration performs `loadStep`, then either stops —
falsy next `after`, `pageCount >= maxPages`, or `has_more` falsy — or
recurses with the last item's `id` as cursor. -/
def loadGo (pages : Nat → Page) : Nat → Nat → Option String → LoadState → LoadState
  | 0, ci, after, st => loadStep pages ci after st
  | f+1, ci, after, st =>
      let na := loaderNextAfter ((pages ci).data.getD [])
      if !optTruthy na || f == 0 then loadStep pages ci after st
      else if !(pages ci).has_more then loadStep pages ci after st
      else loadGo pages f (ci+1) na (loadStep pages ci after st)

/-- The dropdown loader `paginatedLoadOptions`: forward-only pagination from
an undefined cursor, at most 10 pages. -/
def paginatedLoadOptions (pages : Nat → Page) : LoadState :=
  loadGo pages 10 0 none ⟨[], [], []⟩

/-! ### Stepping lemmas for the aggregation loop -/

theorem loopGo_stop_hasMore (pages : Nat → Page) (f ci : Nat) (qs : Qs) (mode : Option Dir)
    (items : List Item) (log : List Qs) (hm : (pages ci).has_more = false) :
    loopGo pages (f+1) ci qs mode items log
      = ⟨pages ci, items ++ (pages ci).data.getD [], log ++ [qs]⟩ := by
  simp [loopGo, hm]

theorem loopGo_stop_empty (pages : Nat → Page) (f ci : Nat) (qs : Qs) (mode : Option Dir)
    (items : List Item) (log : List Qs) (hrd : (pages ci).data.getD [] = []) :
    loopGo pages (f+1) ci qs mode items log
      = ⟨pages ci, items ++ (pages ci).data.getD [], log ++ [qs]⟩ := by
  simp [loopGo, hrd]

theorem loopGo_stop_fuel (pages : Nat → Page) (ci : Nat) (qs : Qs) (mode : Option Dir)
    (items : List Item) (log : List Qs) :
    loopGo pages 1 ci qs mode items log
      = ⟨pages ci, items ++ (pages ci).data.getD [], log ++ [qs]⟩ := by
  show loopGo pages (0+1) ci qs mode items log = _
  simp [loopGo]

theorem loopGo_stop_cursor (pages : Nat → Page) (f ci : Nat) (qs : Qs) (mode : Option Dir)
    (items : List Item) (log : List Qs)
    (hc : lastCursor ((pages ci).data.getD []) = none) :
    loopGo pages (f+1) ci qs mode items log
      = ⟨pages ci, items ++ (pages ci).data.getD [], log ++ [qs]⟩ := by
  simp only [loopGo]
  by_cases hcond : (!(pages ci).has_more || ((pages ci).data.getD []).isEmpty || f == 0) = true
  · simp [hcond]
  · simp only [hcond, Bool.false_eq_true, if_false, hc]

theorem loopGo_continue (pages : Nat → Page) (f ci : Nat) (qs : Qs) (mode : Option Dir)
    (items : List Item) (log : List Qs) (nid : String)
    (hm : (pages ci).has_more = true) (hrd : (pages ci).data.getD [] ≠ [])
    (hf : f ≠ 0) (hc : lastCursor ((pages ci).data.getD []) = some nid) :
    loopGo pages (f+1) ci qs mode items log
      = loopGo pages f (ci+1) (nextQs qs mode nid) (nextMode mode)
          (items ++ (pages ci).data.getD []) (log ++ [qs]) := by
  simp only [loopGo]
  have hcond : (!(pages ci).has_more || ((pages ci).data.getD []).isEmpty || f == 0) = false := by
    simp [hm, hrd, hf]
  simp [hcond, hc]

/-! ### Transcript invariants and call counts -/

theorem loopGo_calls_all (pages : Nat → Page) (P : Qs → Prop) (M : Option Dir → Prop)
    (hM : ∀ mode, M mode → M (nextMode mode))
    (hP : ∀ qs mode nid, M mode → P qs → P (nextQs qs mode nid)) :
    ∀ (f ci : Nat) (qs : Qs) (mode : Option Dir) (items : List Item) (log : List Qs),
      M mode → P qs → (∀ q ∈ log, P q) →
      ∀ q ∈ (loopGo pages f ci qs mode items log).calls, P q := by
  intro f
  induction f with
  | zero =>
      intro ci qs mode items log _ hq hlog q hmem
      simp only [loopGo, List.mem_append, List.mem_singleton] at hmem
      rcases hmem with h | h
      · exact hlog q h
      · exact h ▸ hq
  | succ f ih =>
      intro ci qs mode items log hm hq hlog q hmem
      have hlog' : ∀ q ∈ log ++ [qs], P q := by
        intro q hq'
        rcases List.mem_append.mp hq' with h | h
        · exact hlog q h
        · exact (List.mem_singleton.mp h) ▸ hq
      by_cases h1 : (pages ci).has_more = true
      · by_cases h2 : (pages ci).data.getD [] = []
        · rw [loopGo_stop_empty pages f ci qs mode items log h2] at hmem
          exact hlog' q hmem
        · by_cases h3 : f = 0
          · subst h3
            rw [loopGo_stop_fuel pages ci qs mode items log] at hmem
            exact hlog' q hmem
          · cases hc : lastCursor ((pages ci).data.getD []) with
            | none =>
                rw [loopGo_stop_cursor pages f ci qs mode items log hc] at hmem
                exact hlog' q hmem
            | some nid =>
                rw [loopGo_continue pages f ci qs mode items log nid h1 h2 h3 hc] at hmem
                exact ih (ci+1) (nextQs qs mode nid) (nextMode mode)
                  (items ++ (pages ci).data.getD []) (log ++ [qs])
                  (hM mode hm) (hP qs mode nid hm hq) hlog' q hmem
      · have h1' : (pages ci).has_more = false := by
          cases hb : (pages ci).has_more
          · rfl
          · exact absurd hb h1
        rw [loopGo_stop_hasMore pages f ci qs mode items log h1'] at hmem
        exact hlog' q hmem

theorem loopGo_calls_length (pages : Nat → Page)
    (hall : ∀ k, (pages k).has_more = true ∧ (pages k).data.getD [] ≠ [] ∧
                 (lastCursor ((pages k).data.getD [])).isSome = true) :
    ∀ (f ci : Nat) (qs : Qs) (mode : Option Dir) (items : List Item) (log : List Qs),
      (loopGo pages (f+1) ci qs mode items log).calls.length = log.length + (f+1) := by
  intro f
  induction f with
  | zero =>
      intro ci qs mode items log
      rw [loopGo_stop_fuel]
      simp
  | succ f ih =>
      intro ci qs mode items log
      obtain ⟨h1, h2, h3⟩ := hall ci
      obtain ⟨nid, hc⟩ := Option.isSome_iff_exists.mp h3
      rw [loopGo_continue pages (f+1) ci qs mode items log nid h1 h2 (Nat.succ_ne_zero f) hc]
      rw [ih]
      simp
      omega

/-! ### Loader loop lemmas -/

theorem loaderNextAfter_truthy (items : List Item) :
    optTruthy (loaderNextAfter items) = (lastCursor items).isSome := by
  unfold loaderNextAfter lastCursor
  cases hl : items.getLast? with
  | none => rfl
  | some it =>
      simp only []
      cases hid : it.id with
      | none => simp [optTruthy]
      | some s =>
          cases hs : s.isEmpty <;> simp [optTruthy, hs]

theorem loadGo_stop_cursor (pages : Nat → Page) (f ci : Nat) (after : Option String)
    (st : LoadState) (hna : optTruthy (loaderNextAfter ((pages ci).data.getD [])) = false) :
    loadGo pages (f+1) ci after st = loadStep pages ci after st := by
  simp [loadGo, hna]

theorem loadGo_stop_fuel (pages : Nat → Page) (ci : Nat) (after : Option String)
    (st : LoadState) :
    loadGo pages 1 ci after st = loadStep pages ci after st := by
  show loadGo pages (0+1) ci after st = _
  simp [loadGo]

theorem loadGo_stop_hasMore (pages : Nat → Page) (f ci : Nat) (after : Option String)
    (st : LoadState) (hm : (pages ci).has_more = false) :
    loadGo pages (f+1) ci after st = loadStep pages ci after st := by
  simp [loadGo, hm]

theorem loadGo_continue (pages : Nat → Page) (f ci : Nat) (after : Option String)
    (st : LoadState) (hna : optTruthy (loaderNextAfter ((pages ci).data.getD [])) = true)
    (hf : f ≠ 0) (hm : (pages ci).has_more = true) :
    loadGo pages (f+1) ci after st
      = loadGo pages f (ci+1) (loaderNextAfter ((pages ci).data.getD []))
          (loadStep pages ci after st) := by
  simp [loadGo, hna, hf, hm]

theorem loadGo_calls_length (pages : Nat → Page)
    (hall : ∀ k, (pages k).has_more = true ∧
                 (lastCursor ((pages k).data.getD [])).isSome = true) :
    ∀ (f ci : Nat) (after : Option String) (st : LoadState),
      (loadGo pages (f+1) ci after st).calls.length = st.calls.length + (f+1) := by
  intro f
  induction f with
  | zero =>
      intro ci after st
      rw [loadGo_stop_fuel]
      simp [loadStep]
  | succ f ih =>
      intro ci after st
      obtain ⟨h1, h2⟩ := hall ci
      have hna : optTruthy (loaderNextAfter ((pages ci).data.getD [])) = true := by
        rw [loaderNextAfter_truthy]; exact h2
      rw [loadGo_continue pages (f+1) ci after st hna (Nat.succ_ne_zero f) h1]
      rw [ih]
      simp [loadStep]
      omega

theorem loadGo_projects (pages : Nat → Page) :
    ∀ (f ci : Nat) (after : Option String) (st : LoadState),
      st.returnData = st.received.filterMap projectItem →
      (loadGo pages f ci after st).returnData
        = ((loadGo pages f ci after st).received).filterMap projectItem := by
  have hstep : ∀ ci after st, st.returnData = st.received.filterMap projectItem →
      (loadStep pages ci after st).returnData
        = (loadStep pages ci after st).received.filterMap projectItem := by
    intro ci after st h
    simp [loadStep, projectItems, h, List.filterMap_append]
  intro f
  induction f with
  | zero =>
      intro ci after st h
      simp only [loadGo]
      exact hstep ci after st h
  | succ f ih =>
      intro ci after st h
      simp only [loadGo]
      by_cases h1 : (!optTruthy (loaderNextAfter ((pages ci).data.getD [])) || f == 0) = true
      · simp only [h1, if_true]
        exact hstep ci after st h
      · simp only [h1, Bool.false_eq_true, if_false]
        by_cases h2 : (pages ci).has_more
        · simp only [h2, Bool.not_true, Bool.false_eq_true, if_false]
          exact ih (ci+1) _ _ (hstep ci after st h)
        · have h2' : (pages ci).has_more = false := by
            cases hb : (pages ci).has_more
            · rfl
            · exact absurd hb h2
          simp only [h2', Bool.not_false, if_true]
          exact hstep ci after st h

/-! ### Shape of the full-aggregation branch of `requestList` -/

theorem requestList_agg_cases (pages : Nat → Page) (lo : ListOptions) (i : Nat)
    (lim : Option Int) (hlo : (optTruthy lo.after && optTruthy lo.before) = false) :
    requestList pages lo i true lim
      = (finalizeAgg (aggOut pages lo lim), (aggOut pages lo lim).calls) := by
  unfold requestList aggOut
  rw [hlo]
  rfl

theorem finalizeAgg_some (out : AggOut) (d : List Item)
    (hd : out.lastResponse.data = some d) :
    finalizeAgg out
      = .ok { out.lastResponse with data := some out.allItems, has_more := false } := by
  simp only [finalizeAgg, hd]

theorem finalizeAgg_none (out : AggOut) (hd : out.lastResponse.data = none) :
    finalizeAgg out
      = .ok { object := "list", data := some out.allItems, has_more := false, extra := [] } := by
  simp only [finalizeAgg, hd]

theorem requestList_single_eq (pages : Nat → Page) (lo : ListOptions) (i : Nat)
    (lim : Option Int) (hlo : (optTruthy lo.after && optTruthy lo.before) = false) :
    requestList pages lo i false lim
      = (.ok (truncateSingle (pages 0) lim), [initialQs lo false lim]) := by
  unfold requestList
  rw [hlo]
  rfl

/-! ### Concrete fixtures used to instantiate theorems with hypotheses -/

/-- A minimal item with a valid id. -/
def itemA : Item := ⟨some "a", none, []⟩

/-- A page with one valid item that reports more pages. -/
def pageMore : Page := ⟨"list", some [itemA], true, []⟩

/-- A page with one valid item that reports no more pages. -/
def pageDone : Page := ⟨"list", some [itemA], false, []⟩

/-- An upstream that always reports more pages with valid items. -/
def pagesAlwaysMore : Nat → Page := fun _ => pageMore

/-- An upstream that is exhausted after its first page. -/
def pagesDone : Nat → Page := fun _ => pageDone

/-! ### Claim theorems -/

/-- C3: whenever both the `after` and the `before` cursor are set (truthy),
`requestList` fails with the `InvalidArgument` `NodeOperationError` carrying
the item index, before issuing any network call (empty transcript),
regardless of `returnAll` and `limit`. -/
theorem requestList_both_cursors_error (pages : Nat → Page) (lo : ListOptions)
    (i : Nat) (returnAll : Bool) (lim : Option Int)
    (ha : optTruthy lo.after = true) (hb : optTruthy lo.before = true) :
    requestList pages lo i returnAll lim
      = (.error (.invalidArgument "You can only use either \"After\" or \"Before\", not both." i),
         []) := by
  unfold requestList
  rw [ha, hb]
  rfl

/-- Witness for C3 at a concrete input. -/
theorem requestList_both_cursors_error_witness :
    requestList pagesDone ⟨some "x", some "y"⟩ 7 true (some 5)
      = (.error (.invalidArgument "You can only use either \"After\" or \"Before\", not both." 7),
         []) :=
  requestList_both_cursors_error pagesDone ⟨some "x", some "y"⟩ 7 true (some 5) rfl rfl

/-- C1: in full-aggregation mode each fetched page's items are appended to
the accumulated result in the order received, without re-sorting or
deduplication: for three consecutive pages of sizes 100, 100 and 37 where
the first two report `has_more = true` (with usable last-item ids) and the
third `has_more = false`, `requestList` issues exactly 3 page-fetch calls
and returns all 237 items in call order with `has_more = false`. -/
theorem requestList_three_pages (pages : Nat → Page) (lo : ListOptions) (i : Nat)
    (lim : Option Int) (d0 d1 d2 : List Item) (c0 c1 : String)
    (hlo : (optTruthy lo.after && optTruthy lo.before) = false)
    (h0 : (pages 0).data = some d0) (h0m : (pages 0).has_more = true)
    (h0n : d0.length = 100) (h0c : lastCursor d0 = some c0)
    (h1 : (pages 1).data = some d1) (h1m : (pages 1).has_more = true)
    (h1n : d1.length = 100) (h1c : lastCursor d1 = some c1)
    (h2 : (pages 2).data = some d2) (h2m : (pages 2).has_more = false)
    (h2n : d2.length = 37) :
    (requestList pages lo i true lim).2.length = 3 ∧
    (requestList pages lo i true lim).1
      = .ok { pages 2 with data := some (d0 ++ d1 ++ d2), has_more := false } ∧
    (d0 ++ d1 ++ d2).length = 237 := by
  have hrd0 : (pages 0).data.getD [] = d0 := by rw [h0]; rfl
  have hrd1 : (pages 1).data.getD [] = d1 := by rw [h1]; rfl
  have hrd2 : (pages 2).data.getD [] = d2 := by rw [h2]; rfl
  have hne0 : (pages 0).data.getD [] ≠ [] := by
    rw [hrd0]; intro h; rw [h] at h0n; simp at h0n
  have hne1 : (pages 1).data.getD [] ≠ [] := by
    rw [hrd1]; intro h; rw [h] at h1n; simp at h1n
  have hc0 : lastCursor ((pages 0).data.getD []) = some c0 := by rw [hrd0]; exact h0c
  have hc1 : lastCursor ((pages 1).data.getD []) = some c1 := by rw [hrd1]; exact h1c
  have e0 := loopGo_continue pages 99 0 (initialQs lo true lim) (initialMode lo) [] [] c0
    h0m hne0 (by omega) hc0
  have e1 := loopGo_continue pages 98 1 (nextQs (initialQs lo true lim) (initialMode lo) c0)
    (nextMode (initialMode lo)) ([] ++ (pages 0).data.getD []) ([] ++ [initialQs lo true lim]) c1
    h1m hne1 (by omega) hc1
  have e2 := loopGo_stop_hasMore pages 97 2
    (nextQs (nextQs (initialQs lo true lim) (initialMode lo) c0) (nextMode (initialMode lo)) c1)
    (nextMode (nextMode (initialMode lo)))
    ([] ++ (pages 0).data.getD [] ++ (pages 1).data.getD [])
    ([] ++ [initialQs lo true lim] ++ [nextQs (initialQs lo true lim) (initialMode lo) c0]) h2m
  have hagg : aggOut pages lo lim
      = ⟨pages 2, [] ++ (pages 0).data.getD [] ++ (pages 1).data.getD []
            ++ (pages 2).data.getD [],
         [] ++ [initialQs lo true lim] ++ [nextQs (initialQs lo true lim) (initialMode lo) c0]
            ++ [nextQs (nextQs (initialQs lo true lim) (initialMode lo) c0)
                  (nextMode (initialMode lo)) c1]⟩ := by
    show loopGo pages 100 0 (initialQs lo true lim) (initialMode lo) [] [] = _
    rw [show (100 : Nat) = 99 + 1 from rfl, e0, show (99 : Nat) = 98 + 1 from rfl, e1,
        show (98 : Nat) = 97 + 1 from rfl, e2]
  have hlen : (d0 ++ d1 ++ d2).length = 237 := by
    simp [h0n, h1n, h2n]
  refine ⟨?_, ?_, hlen⟩
  · rw [requestList_agg_cases pages lo i lim hlo]
    rw [hagg]
    rfl
  · rw [requestList_agg_cases pages lo i lim hlo]
    have hd : (aggOut pages lo lim).lastResponse.data = some d2 := by
      rw [hagg]; exact h2
    rw [finalizeAgg_some (aggOut pages lo lim) d2 hd, hagg]
    simp [hrd0, hrd1, hrd2]

/-- A concrete three-page upstream: two full pages of 100 items reporting
more, then a page of 37 items reporting exhaustion. -/
def pages3 : Nat → Page := fun k =>
  if k ≤ 1 then ⟨"list", some (List.replicate 100 itemA), true, []⟩
  else ⟨"list", some (List.replicate 37 itemA), false, []⟩

/-- Witness for C1 at a concrete input. -/
theorem requestList_three_pages_witness :
    (requestList pages3 ⟨none, none⟩ 0 true none).2.length = 3 ∧
    (requestList pages3 ⟨none, none⟩ 0 true none).1
      = .ok { pages3 2 with
              data := some (List.replicate 100 itemA ++ List.replicate 100 itemA
                              ++ List.replicate 37 itemA),
              has_more := false } ∧
    (List.replicate 100 itemA ++ List.replicate 100 itemA
        ++ List.replicate 37 itemA).length = 237 :=
  requestList_three_pages pages3 ⟨none, none⟩ 0 none
    (List.replicate 100 itemA) (List.replicate 100 itemA) (List.replicate 37 itemA) "a" "a"
    rfl rfl rfl (by simp) (by decide) rfl rfl (by simp) (by decide) rfl rfl (by simp)

/-- C2: in full-aggregation mode a fetched page with an empty item sequence
stops pagination immediately (even with `has_more = true`) and leaves the
previously accumulated items unmodified; in general the loop continues only
if the page reported `has_more`, its item sequence was non-empty, the
100-iteration bound was not reached, and the last item's `id` is non-empty;
and every full-aggregation result has `has_more` forced to `false`. -/
theorem requestList_stop_conditions (pages : Nat → Page) (f ci : Nat) (qs : Qs)
    (mode : Option Dir) (items : List Item) (log : List Qs) :
    ((pages ci).data.getD [] = [] →
       loopGo pages (f+1) ci qs mode items log = ⟨pages ci, items, log ++ [qs]⟩) ∧
    (¬((pages ci).has_more = true ∧ (pages ci).data.getD [] ≠ [] ∧ f ≠ 0 ∧
         (lastCursor ((pages ci).data.getD [])).isSome = true) →
       loopGo pages (f+1) ci qs mode items log
         = ⟨pages ci, items ++ (pages ci).data.getD [], log ++ [qs]⟩) ∧
    (∀ (lo : ListOptions) (i : Nat) (lim : Option Int) (r : Page) (log2 : List Qs),
       requestList pages lo i true lim = (.ok r, log2) → r.has_more = false) := by
  refine ⟨?_, ?_, ?_⟩
  · intro h
    rw [loopGo_stop_empty pages f ci qs mode items log h, h]
    simp
  · intro h
    by_cases h1 : (pages ci).has_more = true
    · by_cases h2 : (pages ci).data.getD [] = []
      · exact loopGo_stop_empty pages f ci qs mode items log h2
      · by_cases h3 : f = 0
        · subst h3
          exact loopGo_stop_fuel pages ci qs mode items log
        · cases hc : lastCursor ((pages ci).data.getD []) with
          | none => exact loopGo_stop_cursor pages f ci qs mode items log hc
          | some nid =>
              exact absurd ⟨h1, h2, h3, by rw [hc]; rfl⟩ h
    · have h1' : (pages ci).has_more = false := by
        cases hb : (pages ci).has_more
        · rfl
        · exact absurd hb h1
      exact loopGo_stop_hasMore pages f ci qs mode items log h1'
  · intro lo i lim r log2 h
    by_cases hlo : (optTruthy lo.after && optTruthy lo.before) = true
    · unfold requestList at h
      rw [hlo] at h
      simp at h
    · have hlo' : (optTruthy lo.after && optTruthy lo.before) = false := by
        cases hb : (optTruthy lo.after && optTruthy lo.before)
        · rfl
        · exact absurd hb hlo
      rw [requestList_agg_cases pages lo i lim hlo'] at h
      have h1 := congrArg Prod.fst h
      simp only [] at h1
      cases hd : (aggOut pages lo lim).lastResponse.data with
      | some d =>
          rw [finalizeAgg_some (aggOut pages lo lim) d hd] at h1
          injection h1 with h2
          rw [← h2]
      | none =>
          rw [finalizeAgg_none (aggOut pages lo lim) hd] at h1
          injection h1 with h2
          rw [← h2]

/-- Witness for C2 at a concrete input: a page with `has_more = true` but an
empty item array stops the walk with the accumulator untouched. -/
theorem requestList_stop_conditions_witness :
    loopGo (fun _ => ⟨"list", some [], true, []⟩) 5 0
        ⟨some 100, none, none⟩ none [itemA] []
      = ⟨(fun _ => (⟨"list", some [], true, []⟩ : Page)) 0, [itemA],
         [] ++ [⟨some 100, none, none⟩]⟩ :=
  (requestList_stop_conditions (fun _ => ⟨"list", some [], true, []⟩) 4 0
    ⟨some 100, none, none⟩ none [itemA] []).1 rfl

theorem optTruthy_isSome (o : Option String) (h : optTruthy o = true) : o.isSome = true := by
  cases o with
  | none => simp [optTruthy] at h
  | some s => rfl

/-- C4: in full-aggregation mode the pagination direction is fixed for the
whole walk.  When the caller supplied a truthy `before`, every request of
the walk carries `before` and never `after`; otherwise every request is free
of `before` (and when the caller supplied a truthy `after`, every request
carries `after`); in every request at most one cursor field is present. -/
theorem requestList_direction_fixed (pages : Nat → Page) (lo : ListOptions) (i : Nat)
    (lim : Option Int)
    (hlo : (optTruthy lo.after && optTruthy lo.before) = false) :
    (optTruthy lo.before = true →
       ∀ q ∈ (requestList pages lo i true lim).2, q.before.isSome = true ∧ q.after = none) ∧
    (optTruthy lo.before = false →
       ∀ q ∈ (requestList pages lo i true lim).2, q.before = none) ∧
    (optTruthy lo.after = true →
       ∀ q ∈ (requestList pages lo i true lim).2, q.after.isSome = true ∧ q.before = none) ∧
    (∀ q ∈ (requestList pages lo i true lim).2, q.after = none ∨ q.before = none) := by
  have hcalls : (requestList pages lo i true lim).2 = (aggOut pages lo lim).calls := by
    rw [requestList_agg_cases pages lo i lim hlo]
  rw [hcalls]
  have hbefore : optTruthy lo.before = true →
      ∀ q ∈ (aggOut pages lo lim).calls, q.before.isSome = true ∧ q.after = none := by
    intro hb
    have hafalse : optTruthy lo.after = false := by
      cases hx : optTruthy lo.after
      · rfl
      · rw [hx, hb] at hlo; simp at hlo
    refine loopGo_calls_all pages (fun q => q.before.isSome = true ∧ q.after = none)
      (fun mode => mode = some Dir.before) ?_ ?_ 100 0 (initialQs lo true lim)
      (initialMode lo) [] [] ?_ ?_ ?_
    · intro mode h
      subst h
      rfl
    · intro qs mode nid h _
      subst h
      exact ⟨rfl, rfl⟩
    · simp [initialMode, hb]
    · constructor
      · show (if optTruthy lo.before then lo.before else none).isSome = true
        rw [hb]
        simp [optTruthy_isSome lo.before hb]
      · show (if optTruthy lo.after then lo.after else none) = none
        rw [hafalse]
        rfl
    · intro q hq
      simp at hq
  have hforward : optTruthy lo.before = false →
      ∀ q ∈ (aggOut pages lo lim).calls, q.before = none := by
    intro hb
    refine loopGo_calls_all pages (fun q => q.before = none)
      (fun mode => mode ≠ some Dir.before) ?_ ?_ 100 0 (initialQs lo true lim)
      (initialMode lo) [] [] ?_ ?_ ?_
    · intro mode h
      cases mode with
      | none => simp [nextMode]
      | some d =>
          cases d with
          | after => simp [nextMode]
          | before => exact absurd rfl h
    · intro qs mode nid h _
      cases mode with
      | none => rfl
      | some d =>
          cases d with
          | after => rfl
          | before => exact absurd rfl h
    · simp [initialMode, hb]
    · show (if optTruthy lo.before then lo.before else none) = none
      rw [hb]
      rfl
    · intro q hq
      simp at hq
  have hafter : optTruthy lo.after = true →
      ∀ q ∈ (aggOut pages lo lim).calls, q.after.isSome = true ∧ q.before = none := by
    intro ha
    have hbfalse : optTruthy lo.before = false := by
      cases hx : optTruthy lo.before
      · rfl
      · rw [hx, ha] at hlo; simp at hlo
    refine loopGo_calls_all pages (fun q => q.after.isSome = true ∧ q.before = none)
      (fun mode => mode ≠ some Dir.before) ?_ ?_ 100 0 (initialQs lo true lim)
      (initialMode lo) [] [] ?_ ?_ ?_
    · intro mode h
      cases mode with
      | none => simp [nextMode]
      | some d =>
          cases d with
          | after => simp [nextMode]
          | before => exact absurd rfl h
    · intro qs mode nid h _
      cases mode with
      | none => exact ⟨rfl, rfl⟩
      | some d =>
          cases d with
          | after => exact ⟨rfl, rfl⟩
          | before => exact absurd rfl h
    · simp [initialMode, hbfalse]
    · constructor
      · show (if optTruthy lo.after then lo.after else none).isSome = true
        rw [ha]
        simp [optTruthy_isSome lo.after ha]
      · show (if optTruthy lo.before then lo.before else none) = none
        rw [hbfalse]
        rfl
    · intro q hq
      simp at hq
  refine ⟨hbefore, hforward, hafter, ?_⟩
  intro q hq
  cases hb : optTruthy lo.before
  · exact Or.inr (hforward hb q hq)
  · exact Or.inl ((hbefore hb q hq).2)

/-- Witness for C4 at a concrete input: with `before` supplied, the query
sent carries `before` and no `after`. -/
theorem requestList_direction_fixed_witness :
    (initialQs ⟨none, some "b"⟩ true none).before.isSome = true ∧
    (initialQs ⟨none, some "b"⟩ true none).after = none :=
  (requestList_direction_fixed pagesDone ⟨none, some "b"⟩ 0 none rfl).1 rfl
    (initialQs ⟨none, some "b"⟩ true none) (by decide)

/-- C5: against an upstream that always reports `has_more = true` with
non-empty pages whose last item has a usable id, the full-aggregation loop
of `requestList` issues exactly 100 page-fetch calls and the dropdown
loader `paginatedLoadOptions` issues exactly 10, then both stop. -/
theorem pagination_bounds (pages : Nat → Page) (lo : ListOptions) (i : Nat)
    (lim : Option Int)
    (hlo : (optTruthy lo.after && optTruthy lo.before) = false)
    (hall : ∀ k, (pages k).has_more = true ∧ (pages k).data.getD [] ≠ [] ∧
                 (lastCursor ((pages k).data.getD [])).isSome = true) :
    (requestList pages lo i true lim).2.length = 100 ∧
    (paginatedLoadOptions pages).calls.length = 10 := by
  constructor
  · have hcalls : (requestList pages lo i true lim).2 = (aggOut pages lo lim).calls := by
      rw [requestList_agg_cases pages lo i lim hlo]
    rw [hcalls]
    show (loopGo pages 100 0 (initialQs lo true lim) (initialMode lo) [] []).calls.length = 100
    have h := loopGo_calls_length pages hall 99 0 (initialQs lo true lim) (initialMode lo) [] []
    simpa using h
  · have hall2 : ∀ k, (pages k).has_more = true ∧
        (lastCursor ((pages k).data.getD [])).isSome = true :=
      fun k => ⟨(hall k).1, (hall k).2.2⟩
    show (loadGo pages 10 0 none ⟨[], [], []⟩).calls.length = 10
    have h := loadGo_calls_length pages hall2 9 0 none ⟨[], [], []⟩
    simpa using h

/-- Witness for C5 at a concrete input. -/
theorem pagination_bounds_witness :
    (requestList pagesAlwaysMore ⟨none, none⟩ 0 true none).2.length = 100 ∧
    (paginatedLoadOptions pagesAlwaysMore).calls.length = 10 :=
  pagination_bounds pagesAlwaysMore ⟨none, none⟩ 0 none rfl
    (fun _ => ⟨rfl, List.cons_ne_nil _ _, rfl⟩)

/-- C6 counterexample: with `returnAll = false` and a supplied limit of `0`,
the single request is sent with `limit = 0` (the source's `limit ?? 50`
nullish default does not trigger on `0`), not with the default `50` the
claim predicts for a zero or negative limit. -/
theorem requestList_limit_default_counterexample :
    (requestList pagesDone ⟨none, none⟩ 0 false (some 0)).2.map Qs.limit = [some 0] ∧
    ¬((requestList pagesDone ⟨none, none⟩ 0 false (some 0)).2.map Qs.limit = [some 50]) := by
  decide

/-- C6 (amended): in single-page mode the one request's `limit` equals the
caller's limit whenever one is supplied — including zero and negative
values — and the default `50` only when the limit is absent; in
full-aggregation mode every request's `limit` is `100` regardless of the
supplied limit. -/
theorem requestList_limit_param (pages : Nat → Page) (lo : ListOptions) (i : Nat)
    (lim : Option Int)
    (hlo : (optTruthy lo.after && optTruthy lo.before) = false) :
    ((requestList pages lo i false lim).2.map Qs.limit = [some (lim.getD 50)]) ∧
    (∀ q ∈ (requestList pages lo i true lim).2, q.limit = some 100) := by
  constructor
  · rw [requestList_single_eq pages lo i lim hlo]
    rfl
  · have hcalls : (requestList pages lo i true lim).2 = (aggOut pages lo lim).calls := by
      rw [requestList_agg_cases pages lo i lim hlo]
    rw [hcalls]
    refine loopGo_calls_all pages (fun q => q.limit = some 100) (fun _ => True)
      (fun _ _ => trivial) ?_ 100 0 (initialQs lo true lim) (initialMode lo) [] []
      trivial rfl ?_
    · intro qs mode nid _ hq
      cases mode with
      | none => exact hq
      | some d =>
          cases d with
          | after => exact hq
          | before => exact hq
    · intro q hq
      simp at hq

/-- Witness for C6 at a concrete input: a negative caller limit is sent
verbatim. -/
theorem requestList_limit_param_witness :
    (requestList pagesDone ⟨none, none⟩ 0 false (some (-3))).2.map Qs.limit = [some (-3)] :=
  (requestList_limit_param pagesDone ⟨none, none⟩ 0 (some (-3)) rfl).1

/-- C7: in single-page mode with a positive limit, a response whose `data`
array exceeds the limit is truncated client-side to exactly the first
`limit` items in original order, with a single network call issued and
`has_more` left at the upstream value. -/
theorem requestList_single_truncates (pages : Nat → Page) (lo : ListOptions) (i : Nat)
    (l : Int) (d : List Item)
    (hlo : (optTruthy lo.after && optTruthy lo.before) = false)
    (hl : 0 < l) (hd : (pages 0).data = some d) (hlen : l < (d.length : Int)) :
    requestList pages lo i false (some l)
      = (.ok { pages 0 with data := some (d.take l.toNat) },
         [initialQs lo false (some l)]) ∧
    (d.take l.toNat).length = l.toNat ∧
    ({ pages 0 with data := some (d.take l.toNat) } : Page).has_more
      = (pages 0).has_more := by
  refine ⟨?_, ?_, rfl⟩
  · rw [requestList_single_eq pages lo i (some l) hlo]
    unfold truncateSingle
    rw [hd]
    show (Except.ok (if 0 < l ∧ l < (d.length : Int)
            then { pages 0 with data := some (d.take l.toNat) } else pages 0),
          [initialQs lo false (some l)]) = _
    rw [if_pos ⟨hl, hlen⟩]
  · rw [List.length_take]
    omega

/-- Eight distinct items, used to exercise single-page truncation. -/
def items8 : List Item :=
  [⟨some "1", none, []⟩, ⟨some "2", none, []⟩, ⟨some "3", none, []⟩, ⟨some "4", none, []⟩,
   ⟨some "5", none, []⟩, ⟨some "6", none, []⟩, ⟨some "7", none, []⟩, ⟨some "8", none, []⟩]

/-- A page carrying the eight items and reporting more pages. -/
def page8 : Page := ⟨"list", some items8, true, []⟩

/-- Witness for C7 at a concrete input: 8 items, limit 5. -/
theorem requestList_single_truncates_witness :
    requestList (fun _ => page8) ⟨none, none⟩ 0 false (some 5)
      = (.ok { page8 with data := some (items8.take (5 : Int).toNat) },
         [initialQs ⟨none, none⟩ false (some 5)]) ∧
    (items8.take (5 : Int).toNat).length = (5 : Int).toNat ∧
    ({ page8 with data := some (items8.take (5 : Int).toNat) } : Page).has_more
      = page8.has_more :=
  requestList_single_truncates (fun _ => page8) ⟨none, none⟩ 0 5 items8
    rfl (by decide) rfl (by decide)

/-- An upstream whose first page is a normal array-bearing page with more to
come, but whose second response carries no array-valued `data`. -/
def pagesThenNoArray : Nat → Page := fun k =>
  if k = 0 then pageMore else ⟨"err", none, false, [("message", "shape drift")]⟩

/-- C8 counterexample: when the final fetched response carries no
array-valued `data` but an earlier page contributed items, the fallback
result's item sequence is the non-empty accumulator, not the empty sequence
the claim predicts. -/
theorem requestList_fallback_counterexample :
    (requestList pagesThenNoArray ⟨none, none⟩ 0 true none).1
      = .ok ⟨"list", some [itemA], false, []⟩ ∧
    (requestList pagesThenNoArray ⟨none, none⟩ 0 true none).1
      ≠ .ok ⟨"list", some [], false, []⟩ := by
  decide

/-- C8 (amended): in full-aggregation mode, when the final fetched
response's `data` is not an array, `requestList` falls back to a fresh
result with `object = "list"`, `has_more = false`, no other fields, and
`data` equal to the full accumulated item list — which is empty exactly
when no fetched page carried an array. -/
theorem requestList_fallback (pages : Nat → Page) (lo : ListOptions) (i : Nat)
    (lim : Option Int)
    (hlo : (optTruthy lo.after && optTruthy lo.before) = false)
    (hna : (aggOut pages lo lim).lastResponse.data = none) :
    requestList pages lo i true lim
      = (.ok { object := "list", data := some (aggOut pages lo lim).allItems,
               has_more := false, extra := [] },
         (aggOut pages lo lim).calls) := by
  rw [requestList_agg_cases pages lo i lim hlo,
      finalizeAgg_none (aggOut pages lo lim) hna]

/-- An upstream that never returns an array-valued `data` field. -/
def pagesNoArray : Nat → Page := fun _ => ⟨"err", none, false, []⟩

/-- Witness for C8 (amended) at a concrete input. -/
theorem requestList_fallback_witness :
    requestList pagesNoArray ⟨none, none⟩ 0 true none
      = (.ok { object := "list", data := some (aggOut pagesNoArray ⟨none, none⟩ none).allItems,
               has_more := false, extra := [] },
         (aggOut pagesNoArray ⟨none, none⟩ none).calls) :=
  requestList_fallback pagesNoArray ⟨none, none⟩ 0 none rfl (by decide)

/-- C10: in full-aggregation mode, when the final fetched response's `data`
is an array, `requestList` returns that very response with exactly two
fields modified — `data` replaced by the accumulated item list and
`has_more` set to `false` — while `object` and every other field are
returned unchanged. -/
theorem requestList_frame (pages : Nat → Page) (lo : ListOptions) (i : Nat)
    (lim : Option Int) (d : List Item)
    (hlo : (optTruthy lo.after && optTruthy lo.before) = false)
    (hd : (aggOut pages lo lim).lastResponse.data = some d) :
    requestList pages lo i true lim
      = (.ok { (aggOut pages lo lim).lastResponse with
               data := some (aggOut pages lo lim).allItems, has_more := false },
         (aggOut pages lo lim).calls) ∧
    ({ (aggOut pages lo lim).lastResponse with
       data := some (aggOut pages lo lim).allItems, has_more := false } : Page).object
      = (aggOut pages lo lim).lastResponse.object ∧
    ({ (aggOut pages lo lim).lastResponse with
       data := some (aggOut pages lo lim).allItems, has_more := false } : Page).extra
      = (aggOut pages lo lim).lastResponse.extra := by
  refine ⟨?_, rfl, rfl⟩
  rw [requestList_agg_cases pages lo i lim hlo, finalizeAgg_some (aggOut pages lo lim) d hd]

/-- Witness for C10 at a concrete input. -/
theorem requestList_frame_witness :
    requestList pagesDone ⟨none, none⟩ 0 true none
      = (.ok { (aggOut pagesDone ⟨none, none⟩ none).lastResponse with
               data := some (aggOut pagesDone ⟨none, none⟩ none).allItems, has_more := false },
         (aggOut pagesDone ⟨none, none⟩ none).calls) ∧
    ({ (aggOut pagesDone ⟨none, none⟩ none).lastResponse with
       data := some (aggOut pagesDone ⟨none, none⟩ none).allItems, has_more := false } : Page).object
      = (aggOut pagesDone ⟨none, none⟩ none).lastResponse.object ∧
    ({ (aggOut pagesDone ⟨none, none⟩ none).lastResponse with
       data := some (aggOut pagesDone ⟨none, none⟩ none).allItems, has_more := false } : Page).extra
      = (aggOut pagesDone ⟨none, none⟩ none).lastResponse.extra :=
  requestList_frame pagesDone ⟨none, none⟩ 0 none [itemA] rfl (by decide)

/-- C9: the dropdown loader projects every item with a usable (non-empty)
`id` into `{name, value}` — `name = "{item.name} ({item.id})"` when the item
has a truthy `name` and `name = item.id` otherwise, `value = item.id` —
omits every item with a falsy `id`, and emits the pairs in the order the
items were received across pages. -/
theorem loader_projection (pages : Nat → Page) :
    ((paginatedLoadOptions pages).returnData
       = ((paginatedLoadOptions pages).received).filterMap projectItem) ∧
    (∀ (it : Item) (i n : String),
       it.id = some i → i ≠ "" → it.name = some n → n ≠ "" →
       projectItem it = some ⟨n ++ " (" ++ i ++ ")", i⟩) ∧
    (∀ (it : Item) (i : String),
       it.id = some i → i ≠ "" → it.name = none →
       projectItem it = some ⟨i, i⟩) ∧
    (∀ it : Item, it.id = none ∨ it.id = some "" → projectItem it = none) := by
  refine ⟨loadGo_projects pages 10 0 none ⟨[], [], []⟩ rfl, ?_, ?_, ?_⟩
  · intro it i n hid hi hn hnn
    have hie : i.isEmpty = false := by
      cases hh : i.isEmpty
      · rfl
      · exact absurd ((String.isEmpty_iff i).mp hh) hi
    have hne : n.isEmpty = false := by
      cases hh : n.isEmpty
      · rfl
      · exact absurd ((String.isEmpty_iff n).mp hh) hnn
    unfold projectItem
    rw [hid, hn]
    simp [hie, hne]
  · intro it i hid hi hn
    have hie : i.isEmpty = false := by
      cases hh : i.isEmpty
      · rfl
      · exact absurd ((String.isEmpty_iff i).mp hh) hi
    unfold projectItem
    rw [hid, hn]
    simp [hie]
  · intro it h
    unfold projectItem
    cases h with
    | inl h => rw [h]
    | inr h => rw [h]; rfl

/-- Witness for C9 at concrete inputs: the two worked examples of the spec. -/
theorem loader_projection_witness :
    projectItem ⟨some "tpl_1", some "Welcome", []⟩
      = some ⟨"Welcome" ++ " (" ++ "tpl_1" ++ ")", "tpl_1"⟩ ∧
    projectItem ⟨some "tpl_2", none, []⟩ = some ⟨"tpl_2", "tpl_2"⟩ :=
  ⟨(loader_projection pagesDone).2.1 ⟨some "tpl_1", some "Welcome", []⟩ "tpl_1" "Welcome"
      rfl (by decide) rfl (by decide),
   (loader_projection pagesDone).2.2.1 ⟨some "tpl_2", none, []⟩ "tpl_2"
      rfl (by decide) rfl⟩
